import Mathlib

/-!
Shallow embedding of the telekey wire protocol and session state machine
(src/main.rs, src/protocol/mod.rs, src/protocol/transport.rs,
src/protocol/bindings/api.rs).

Bytes are modelled as `Nat` (values below 256 on a real socket); byte
streams as `List Nat`.  Machine-integer casts are made explicit with
`% 2^32` / `% 2^64` where the source performs a Rust `as` cast or uses a
fixed-width type.  Fallible operations return `Option`/`Except`, and an
outcome constructor models a Rust panic (`unwrap` on `Err`/`None`) where
the source can panic.
-/

namespace Telekey

/-- Big-endian bytes of `n as u32`, as in `u32::to_be_bytes(len as u32)`. -/
def u32beBytes (n : Nat) : List Nat :=
  [n % 2^32 / 2^24, n % 2^32 / 2^16 % 256, n % 2^32 / 2^8 % 256, n % 2^32 % 256]

/-- Value of four big-endian bytes, as in `u32::from_be_bytes(header)`. -/
def u32beValue (b0 b1 b2 b3 : Nat) : Nat :=
  ((b0 * 256 + b1) * 256 + b2) * 256 + b3

/-- Big-endian bytes of an `i64` timestamp, as in `tm.to_be_bytes()`:
the 8 two's-complement bytes of `t` modulo `2^64`. -/
def i64beBytes (t : Int) : List Nat :=
  let m : Nat := (t % (2^64 : Int)).toNat
  [m / 2^56, m / 2^48 % 256, m / 2^40 % 256, m / 2^32 % 256,
   m / 2^24 % 256, m / 2^16 % 256, m / 2^8 % 256, m % 256]

/-- Packet discriminator (transport.rs, `TelekeyPacketKind`). -/
inductive TelekeyPacketKind
  | Unknown
  | Handshake
  | KeyEvent
  | Ping
deriving DecidableEq

/-- Decode a kind byte (transport.rs, `impl From<u8> for TelekeyPacketKind`). -/
def kindOfByte (b : Nat) : TelekeyPacketKind :=
  if b = 0 then .Handshake
  else if b = 1 then .KeyEvent
  else if b = 2 then .Ping
  else .Unknown

/-- Encode a kind as its wire byte (transport.rs, `impl From<TelekeyPacketKind> for u8`). -/
def byteOfKind : TelekeyPacketKind → Nat
  | .Handshake => 0
  | .KeyEvent => 1
  | .Ping => 2
  | .Unknown => 255

/-- In-memory packet (transport.rs, `TelekeyPacket`): a kind and the raw
body bytes, without framing. -/
structure TelekeyPacket where
  kind : TelekeyPacketKind
  payload : List Nat
deriving DecidableEq

/-- Read exactly `n` bytes from a stream (`read_exact` into an `n`-byte
buffer): the bytes and the remaining stream, or `none` when the stream is
too short. -/
def takeExact : Nat → List Nat → Option (List Nat × List Nat)
  | 0, s => some ([], s)
  | _ + 1, [] => none
  | n + 1, b :: s =>
    match takeExact n s with
    | none => none
    | some (xs, rest) => some (b :: xs, rest)

/-- Error outcomes of a transport receive.  `invalidInput` is the
`io::ErrorKind::InvalidInput` zero-length rejection; `unexpectedEof` a
short read; `decryptError` is the error the spec prescribes for an AEAD tag
mismatch (the source never constructs it, see `kexRecvPacket`). -/
inductive RecvError
  | unexpectedEof
  | invalidInput
  | decryptError
deriving DecidableEq

/-- Plain-transport send (transport.rs, `TcpTransport::send_packet`):
pushes the kind byte onto the payload and writes the payload length
(`as u32`) big-endian followed by the payload. -/
def tcpSendPacket (p : TelekeyPacket) : List Nat :=
  u32beBytes (p.payload.length + 1) ++ p.payload ++ [byteOfKind p.kind]

/-- Plain-transport receive (transport.rs, `TcpTransport::recv_packet`):
read a 4-byte big-endian length, reject zero, read that many bytes, pop
the last byte as the kind.  Returns the packet and the unread remainder
of the stream.  The `getLast? = none` branch is unreachable (the buffer
has `len ≥ 1` bytes); the source would panic on `pop().unwrap()` there. -/
def tcpRecvPacket (s : List Nat) : Except RecvError (TelekeyPacket × List Nat) :=
  match s with
  | b0 :: b1 :: b2 :: b3 :: rest =>
    let len := u32beValue b0 b1 b2 b3
    if len = 0 then .error .invalidInput
    else
      match takeExact len rest with
      | none => .error .unexpectedEof
      | some (buf, rest2) =>
        match buf.getLast? with
        | none => .error .unexpectedEof
        | some kb => .ok (⟨kindOfByte kb, buf.dropLast⟩, rest2)
  | _ => .error .unexpectedEof

/-- Outcome of a secure-transport receive.  `crashed` models a panic:
`recv_packet` calls `.unwrap()` on the AEAD open result and on
`pop()` of the plaintext. -/
inductive KexRecv
  | ok (p : TelekeyPacket) (rest : List Nat)
  | err (e : RecvError)
  | crashed
deriving DecidableEq

/-- Secure-transport send (transport.rs, `KexTransport::send_packet`),
parameterized by the sealing function standing for
`aead::seal(self.keys.transport(), _)`: push the kind byte, seal
`body ++ [kind]`, frame the ciphertext with its big-endian length. -/
def kexSendPacket (sealFn : List Nat → List Nat) (p : TelekeyPacket) : List Nat :=
  let msg := sealFn (p.payload ++ [byteOfKind p.kind])
  u32beBytes msg.length ++ msg

/-- Secure-transport receive (transport.rs, `KexTransport::recv_packet`),
parameterized by the opening function standing for
`aead::open(self.keys.receiving(), _)`: read the length header, reject
zero, read the ciphertext, then `aead::open(..).unwrap()` — an open
failure is a panic (`crashed`), not an error return — and
`buf.pop().unwrap()` — an empty plaintext also panics. -/
def kexRecvPacket (openFn : List Nat → Option (List Nat))
    (s : List Nat) : KexRecv :=
  match s with
  | b0 :: b1 :: b2 :: b3 :: rest =>
    let len := u32beValue b0 b1 b2 b3
    if len = 0 then .err .invalidInput
    else
      match takeExact len rest with
      | none => .err .unexpectedEof
      | some (buf, rest2) =>
        match openFn buf with
        | none => .crashed
        | some pt =>
          match pt.getLast? with
          | none => .crashed
          | some kb => .ok ⟨kindOfByte kb, pt.dropLast⟩ rest2
  | _ => .err .unexpectedEof

/-- Modelled from the spec: stand-in for the orion AEAD primitive
(`orion::aead::seal`), which is an external library and not part of this
repository.  It captures the spec's AEAD contract: the sealed blob is a
ciphertext followed by an authentication tag over the ciphertext and key. -/
def toySeal (key : Nat) (pt : List Nat) : List Nat :=
  let ct := pt.map (fun b => (b + key) % 256)
  ct ++ [(key + ct.sum) % 256]

/-- Modelled from the spec: stand-in for `orion::aead::open`.  Splits the
trailing tag, verifies it against the ciphertext and key, and rejects
(`none`) on mismatch — so any one-byte tamper of a `toySeal` output fails
to open. -/
def toyOpen (key : Nat) (blob : List Nat) : Option (List Nat) :=
  match blob.getLast? with
  | none => none
  | some tag =>
    let ct := blob.dropLast
    if tag = (key + ct.sum) % 256 then
      some (ct.map (fun b => (b + 256 - key % 256) % 256))
    else none

/-- Key taxonomy (bindings/api.rs, `KeyKind`), generated from the protobuf
schema.  Wire values carry gaps: 12 is unused. -/
inductive KeyKind
  | UNKNOWN
  | BACKSPACE
  | ENTER
  | LEFT
  | RIGHT
  | UP
  | DOWN
  | HOME
  | END
  | PAGEUP
  | PAGEDOWN
  | TAB
  | DELETE
  | INSERT
  | FUNCTION
  | CHAR
  | ESC
  | SHIFT
  | META
deriving DecidableEq

/-- Numeric wire value of a `KeyKind` (bindings/api.rs enum discriminants). -/
def keyKindValue : KeyKind → Nat
  | .UNKNOWN => 0
  | .BACKSPACE => 1
  | .ENTER => 2
  | .LEFT => 3
  | .RIGHT => 4
  | .UP => 5
  | .DOWN => 6
  | .HOME => 7
  | .END => 8
  | .PAGEUP => 9
  | .PAGEDOWN => 10
  | .TAB => 11
  | .DELETE => 13
  | .INSERT => 14
  | .FUNCTION => 15
  | .CHAR => 16
  | .ESC => 17
  | .SHIFT => 18
  | .META => 19

/-- Decode an `i32` into a `KeyKind` (bindings/api.rs,
`impl From<i32> for KeyKind`); unmatched values fall to the default
`UNKNOWN`. -/
def keyKindOfInt (i : Int) : KeyKind :=
  if i = 0 then .UNKNOWN
  else if i = 1 then .BACKSPACE
  else if i = 2 then .ENTER
  else if i = 3 then .LEFT
  else if i = 4 then .RIGHT
  else if i = 5 then .UP
  else if i = 6 then .DOWN
  else if i = 7 then .HOME
  else if i = 8 then .END
  else if i = 9 then .PAGEUP
  else if i = 10 then .PAGEDOWN
  else if i = 11 then .TAB
  else if i = 13 then .DELETE
  else if i = 14 then .INSERT
  else if i = 15 then .FUNCTION
  else if i = 16 then .CHAR
  else if i = 17 then .ESC
  else if i = 18 then .SHIFT
  else if i = 19 then .META
  else .UNKNOWN

/-- Keystroke message (bindings/api.rs, `KeyEvent`): `key` and `modifiers`
are `u32` fields, kept below `2^32`. -/
structure KeyEvent where
  kind : KeyKind
  key : Nat
  modifiers : Nat
deriving DecidableEq

/-- LEB128 varint encoder loop with explicit fuel (the quick-protobuf
writer loops while the value exceeds `0x7f`; 10 bytes cover any `u64`). -/
def varintBytesAux : Nat → Nat → List Nat
  | 0, _ => []
  | fuel + 1, n =>
    if n < 128 then [n] else (n % 128 + 128) :: varintBytesAux fuel (n / 128)

/-- LEB128 varint encoding of a value (quick-protobuf `write_varint`). -/
def varintBytes (n : Nat) : List Nat := varintBytesAux 10 n

/-- LEB128 varint decoder with fuel counting the 10-byte limit
(quick-protobuf `read_varint64`): accumulates 7 bits per byte, wraps into
a `u64`, fails on truncation or overlong input. -/
def decodeVarintAux : Nat → Nat → Nat → List Nat → Option (Nat × List Nat)
  | 0, _, _, _ => none
  | _ + 1, _, _, [] => none
  | fuel + 1, shift, acc, b :: rest =>
    if b < 128 then some ((acc + b * 2^shift) % 2^64, rest)
    else decodeVarintAux fuel (shift + 7) (acc + b % 128 * 2^shift) rest

/-- Read one varint from the front of a stream. -/
def decodeVarint (s : List Nat) : Option (Nat × List Nat) :=
  decodeVarintAux 10 0 0 s

/-- Reinterpret a `u32` value as an `i32` (Rust `as i32` cast). -/
def i32OfU32 (v : Nat) : Int :=
  if v < 2^31 then (v : Int) else (v : Int) - 2^32

/-- Skip one unknown field by wire type (quick-protobuf
`BytesReader::read_unknown`): varint, 8-byte, length-delimited or 4-byte;
other wire types are errors. -/
def skipWire (wt : Nat) (s : List Nat) : Option (List Nat) :=
  if wt = 0 then (decodeVarint s).map (fun r => r.2)
  else if wt = 1 then (takeExact 8 s).map (fun r => r.2)
  else if wt = 2 then
    match decodeVarint s with
    | none => none
    | some (len, rest) => (takeExact len rest).map (fun r => r.2)
  else if wt = 5 then (takeExact 4 s).map (fun r => r.2)
  else none

/-- Field-reading loop of `KeyEvent::from_reader` (bindings/api.rs): read
a tag, dispatch on `8`/`16`/`24` (kind, key, modifiers — all varints),
skip unknown fields, stop at end of input.  Fuel bounds the loop (each
iteration consumes at least one byte). -/
def decodeKeyEventAux : Nat → KeyEvent → List Nat → Option KeyEvent
  | _, msg, [] => some msg
  | 0, _, _ :: _ => none
  | fuel + 1, msg, s =>
    match decodeVarint s with
    | none => none
    | some (tag, rest) =>
      let t := tag % 2^32
      if t = 8 then
        match decodeVarint rest with
        | none => none
        | some (v, rest2) =>
          decodeKeyEventAux fuel
            { msg with kind := keyKindOfInt (i32OfU32 (v % 2^32)) } rest2
      else if t = 16 then
        match decodeVarint rest with
        | none => none
        | some (v, rest2) => decodeKeyEventAux fuel { msg with key := v % 2^32 } rest2
      else if t = 24 then
        match decodeVarint rest with
        | none => none
        | some (v, rest2) =>
          decodeKeyEventAux fuel { msg with modifiers := v % 2^32 } rest2
      else
        match skipWire (t % 8) rest with
        | none => none
        | some rest2 => decodeKeyEventAux fuel msg rest2

/-- Deserialize a `KeyEvent` from a packet body
(`quick_protobuf::deserialize_from_slice`): a varint length prefix
followed by that many bytes of fields; trailing bytes are ignored. -/
def decodeKeyEvent (s : List Nat) : Option KeyEvent :=
  match decodeVarint s with
  | none => none
  | some (len, rest) =>
    match takeExact (len % 2^32) rest with
    | none => none
    | some (window, _) =>
      decodeKeyEventAux (window.length + 1) ⟨.UNKNOWN, 0, 0⟩ window

/-- Field bytes of `KeyEvent::write_message` (bindings/api.rs):
default-valued fields are omitted, the rest are written in declaration
order as tag-varint pairs. -/
def keyEventFieldBytes (e : KeyEvent) : List Nat :=
  (if e.kind = KeyKind.UNKNOWN then [] else 8 :: varintBytes (keyKindValue e.kind))
    ++ (if e.key = 0 then [] else 16 :: varintBytes (e.key % 2^32))
    ++ (if e.modifiers = 0 then [] else 24 :: varintBytes (e.modifiers % 2^32))

/-- Serialize a `KeyEvent` into a packet body (transport.rs,
`TelekeyPacket::new` via `Writer::write_message`): the field bytes
preceded by their varint length. -/
def encodeKeyEvent (e : KeyEvent) : List Nat :=
  varintBytes (keyEventFieldBytes e).length ++ keyEventFieldBytes e

/-- Peer role (mod.rs, `TelekeyMode`). -/
inductive TelekeyMode
  | Client
  | Server
deriving DecidableEq

/-- Input-loop session state (mod.rs, `TelekeyState`). -/
inductive TelekeyState
  | Idle
  | Active
deriving DecidableEq

/-- Configuration bundle (mod.rs, `TelekeyConfig`). -/
structure TelekeyConfig where
  hostname : String
  secure : Bool
  updateScreen : Bool
  refreshLatency : Option Nat
  coldRun : Bool
deriving DecidableEq

/-- Peer snapshot (mod.rs, `TelekeyRemote`). -/
structure TelekeyRemote where
  hostname : String
  version : Nat
  mode : TelekeyMode
deriving DecidableEq

/-- Session-relevant fields of the `Telekey` struct (mod.rs); the `enigo`
injector handle is an external resource and carries no modelled state. -/
structure TelekeySt where
  config : TelekeyConfig
  version : Nat
  mode : TelekeyMode
  remote : Option TelekeyRemote
  state : TelekeyState
deriving DecidableEq

/-- Injector key (the subset of `enigo::Key` the adapter produces;
`Layout` carries the Unicode scalar of the `char`). -/
inductive EnigoKey
  | Return
  | UpArrow
  | DownArrow
  | LeftArrow
  | RightArrow
  | Escape
  | Backspace
  | Home
  | End
  | Tab
  | Delete
  | Layout (c : Nat)
  | PageUp
  | PageDown
  | Shift
  | Meta
deriving DecidableEq

/-- Whether `char::from_u32 n` succeeds: `n` is a Unicode scalar value
(not a surrogate, at most `0x10FFFF`). -/
def isUnicodeScalar (n : Nat) : Bool :=
  n < 0xD800 || (0xDFFF < n && n ≤ 0x10FFFF)

/-- Outcome of converting a `KeyEvent` to an injector key (mod.rs,
`impl From<&KeyEvent> for Result<enigo::Key, String>`): `err` stands for
the `Err(format!(..))` branch; `crashed` for the panic of
`char::from_u32(e.key).unwrap()` on an invalid scalar. -/
inductive EnigoConv
  | ok (k : EnigoKey)
  | err
  | crashed
deriving DecidableEq

/-- Convert a `KeyEvent` to an injector key (mod.rs,
`impl From<&KeyEvent> for Result<enigo::Key, String>`).  `UNKNOWN`,
`INSERT` and `FUNCTION` fall to the error branch. -/
def keyEventToEnigo (e : KeyEvent) : EnigoConv :=
  match e.kind with
  | .ENTER => .ok .Return
  | .UP => .ok .UpArrow
  | .DOWN => .ok .DownArrow
  | .LEFT => .ok .LeftArrow
  | .RIGHT => .ok .RightArrow
  | .ESC => .ok .Escape
  | .BACKSPACE => .ok .Backspace
  | .HOME => .ok .Home
  | .END => .ok .End
  | .TAB => .ok .Tab
  | .DELETE => .ok .Delete
  | .CHAR => if isUnicodeScalar e.key then .ok (.Layout e.key) else .crashed
  | .PAGEUP => .ok .PageUp
  | .PAGEDOWN => .ok .PageDown
  | .SHIFT => .ok .Shift
  | .META => .ok .Meta
  | _ => .err

/-- Format a `KeyEvent` as its display glyph (mod.rs,
`impl Display for KeyEvent`).  Returns `none` for the panic of
`char::from_u32(self.key).unwrap()` on an invalid `CHAR` scalar. -/
def displayKeyEvent (e : KeyEvent) : Option String :=
  match e.kind with
  | .ENTER => some "\\n"
  | .UP => some "[A^]"
  | .DOWN => some "[Av]"
  | .LEFT => some "[A<]"
  | .RIGHT => some "[A>]"
  | .BACKSPACE => some "[BACKSPACE]"
  | .INSERT => some "[INSERT]"
  | .CHAR =>
    if isUnicodeScalar e.key then some (String.singleton (Char.ofNat e.key))
    else none
  | .TAB => some "\\t"
  | .HOME => some "[HOM]"
  | .ESC => some "[ESC]"
  | .DELETE => some "[DEL]"
  | .PAGEUP => some "[P^]"
  | .PAGEDOWN => some "[Pv]"
  | .END => some "[END]"
  | .FUNCTION => some ("[F" ++ toString e.key ++ "]")
  | .SHIFT => some "[SHIFT]"
  | .META => some "[WIN|CMD]"
  | .UNKNOWN => some "[?]"

/-- Observable effects of one `handle_packet` call: packets sent over the
transport, lines printed to stdout, injector clicks, whether a runtime
warning was printed, and whether the socket was shut down. -/
structure HandleEffects where
  sent : List TelekeyPacket
  printed : List String
  clicks : List EnigoKey
  warned : Bool
  shutdownCalled : Bool
deriving DecidableEq

/-- The empty effect record. -/
def noEffects : HandleEffects := ⟨[], [], [], false, false⟩

/-- Result of `handle_packet`: success with effects and the (possibly
updated) session state, a decode error (`deserialize_from_slice` failed),
or a panic. -/
inductive HandleResult
  | ok (eff : HandleEffects) (st : TelekeySt)
  | decodeErr (st : TelekeySt)
  | crashed
deriving DecidableEq

/-- Steady-state packet dispatch (mod.rs, `Telekey::handle_packet`),
with `now` the `Utc::now().timestamp_nanos()` reading taken in the `Ping`
arm.  Post-handshake `Handshake` packets are ignored; a `KeyEvent` with no
known remote shuts the socket down (and still returns `Ok`); a `KeyEvent`
is interpreted only when `!self.is_server()` — printed via `Display` under
`cold_run`, otherwise converted and clicked, with a runtime warning (which
itself formats the event) on an unconvertible kind; `Ping` is answered
with the big-endian `i64` timestamp; unknown kinds warn. -/
def handlePacket (st : TelekeySt) (now : Int) (p : TelekeyPacket) : HandleResult :=
  match p.kind with
  | .Handshake => .ok noEffects st
  | .KeyEvent =>
    if st.remote = none then
      .ok { noEffects with shutdownCalled := true } st
    else if st.mode = .Server then
      .ok noEffects st
    else
      match decodeKeyEvent p.payload with
      | none => .decodeErr st
      | some msg =>
        if st.config.coldRun then
          match displayKeyEvent msg with
          | none => .crashed
          | some s => .ok { noEffects with printed := [s] } st
        else
          match keyEventToEnigo msg with
          | .crashed => .crashed
          | .ok k => .ok { noEffects with clicks := [k] } st
          | .err =>
            match displayKeyEvent msg with
            | none => .crashed
            | some _ => .ok { noEffects with warned := true } st
  | .Ping =>
    .ok { noEffects with sent := [⟨.Ping, i64beBytes now⟩] } st
  | .Unknown => .ok { noEffects with warned := true } st

/-- Decoded handshake request message (bindings/api.rs,
`HandshakeRequest`); `token` and `pkey` are byte strings. -/
structure HandshakeRequestM where
  hostname : String
  version : Nat
  token : List Nat
  pkey : List Nat
deriving DecidableEq

/-- Decoded handshake response message (bindings/api.rs,
`HandshakeResponse`). -/
structure HandshakeResponseM where
  hostname : String
  version : Nat
  pkey : List Nat
deriving DecidableEq

/-- Observable effects of the server side of the plain handshake. -/
structure HsEffects where
  sent : List HandshakeResponseM
  shutdownCalled : Bool
deriving DecidableEq

/-- Result of the server side of the plain handshake: either success with
the updated `remote`, or failure (`bail!` message) with the `remote` the
server had on entry. -/
inductive HsResult
  | ok (eff : HsEffects) (remote : Option TelekeyRemote)
  | fail (eff : HsEffects) (msg : String) (remote : Option TelekeyRemote)
deriving DecidableEq

/-- Server branch of the plain-mode handshake (mod.rs,
`Telekey::handshake`), applied to the received and decoded
`HandshakeRequest`: if the session secret differs from the request's
`token` bytes (orion's `SecretKey` equality is bytewise), the socket is
shut down, no response is sent, and the handshake fails with
"Invalid secret", leaving `remote` untouched; otherwise a
`HandshakeResponse {hostname, version, pkey: []}` is sent and `remote`
is set from the request (peer mode `Client`). -/
def serverPlainHandshake (cfg : TelekeyConfig) (version : Nat)
    (remote0 : Option TelekeyRemote) (secret : List Nat)
    (msg : HandshakeRequestM) : HsResult :=
  if secret ≠ msg.token then
    .fail ⟨[], true⟩ "Invalid secret" remote0
  else
    .ok ⟨[⟨cfg.hostname, version, []⟩], false⟩
      (some ⟨msg.hostname, msg.version, .Client⟩)

/-- Terminal key as delivered by the presenter (the `console::Key` values
the adapter distinguishes; `OtherKey` stands for the wildcard arm). -/
inductive ConsoleKey
  | Enter
  | ArrowUp
  | ArrowDown
  | ArrowLeft
  | ArrowRight
  | Escape
  | Backspace
  | Home
  | End
  | Tab
  | Del
  | Insert
  | PageUp
  | PageDown
  | Shift
  | Char (c : Nat)
  | OtherKey
deriving DecidableEq

/-- Terminal-key to `KeyEvent` adapter (mod.rs,
`impl From<console::Key> for KeyEvent`); `Char c` carries the character's
scalar value (`x as u32`), everything unlisted becomes `UNKNOWN`. -/
def keyEventOfConsoleKey : ConsoleKey → KeyEvent
  | .Enter => ⟨.ENTER, 0, 0⟩
  | .ArrowUp => ⟨.UP, 0, 0⟩
  | .ArrowDown => ⟨.DOWN, 0, 0⟩
  | .ArrowLeft => ⟨.LEFT, 0, 0⟩
  | .ArrowRight => ⟨.RIGHT, 0, 0⟩
  | .Escape => ⟨.ESC, 0, 0⟩
  | .Backspace => ⟨.BACKSPACE, 0, 0⟩
  | .Home => ⟨.HOME, 0, 0⟩
  | .End => ⟨.END, 0, 0⟩
  | .Tab => ⟨.TAB, 0, 0⟩
  | .Del => ⟨.DELETE, 0, 0⟩
  | .Insert => ⟨.INSERT, 0, 0⟩
  | .PageUp => ⟨.PAGEUP, 0, 0⟩
  | .PageDown => ⟨.PAGEDOWN, 0, 0⟩
  | .Shift => ⟨.SHIFT, 0, 0⟩
  | .Char c => ⟨.CHAR, c, 0⟩
  | .OtherKey => ⟨.UNKNOWN, 0, 0⟩

/-- State threaded through the `update_screen` branch of the input loop
(mod.rs, `Telekey::wait_for_input`): the `Idle`/`Active` session state,
the key-history `VecDeque` (front = oldest) and the latency counter `l`. -/
structure InputLoopState where
  tstate : TelekeyState
  history : List KeyEvent
  l : Nat
deriving DecidableEq

/-- Result of one input-loop iteration: the next loop state, the
`KeyEvent` packets sent, and how many latency probes fired (0 or 1). -/
structure StepOut where
  next : InputLoopState
  sentKeys : List TelekeyPacket
  probes : Nat
deriving DecidableEq

/-- One iteration of the `update_screen` input loop (mod.rs,
`Telekey::wait_for_input`), with `read` the `term.read_key()` outcome
(`none` = read error, in which case the match body does nothing).  An
`Idle` read flips to `Active` and discards the key; an `Active` read
converts, sends, and appends to the history, evicting the front at
capacity 20.  Then, when `refresh_latency` is `Some period`: if `l`
equals `period` a probe runs and `l` resets, otherwise `l` increments. -/
def inputLoopStep (refreshLatency : Option Nat) (s : InputLoopState)
    (read : Option ConsoleKey) : StepOut :=
  let afterKey : InputLoopState × List TelekeyPacket :=
    match s.tstate, read with
    | .Idle, some _ => ({ s with tstate := .Active }, [])
    | .Idle, none => (s, [])
    | .Active, some k =>
      let e := keyEventOfConsoleKey k
      let hist := if s.history.length = 20 then s.history.drop 1 else s.history
      ({ s with history := hist ++ [e] }, [⟨.KeyEvent, encodeKeyEvent e⟩])
    | .Active, none => (s, [])
  let s1 := afterKey.1
  match refreshLatency with
  | some period =>
    if s1.l = period then ⟨{ s1 with l := 0 }, afterKey.2, 1⟩
    else ⟨{ s1 with l := s1.l + 1 }, afterKey.2, 0⟩
  | none => ⟨s1, afterKey.2, 0⟩

/-- Run the input loop over a list of reads, accumulating the final state
and the total number of latency probes. -/
def runInputLoop (refreshLatency : Option Nat) (s : InputLoopState) :
    List (Option ConsoleKey) → InputLoopState × Nat
  | [] => (s, 0)
  | r :: rs =>
    let out := inputLoopStep refreshLatency s r
    let rec_ := runInputLoop refreshLatency out.next rs
    (rec_.1, out.probes + rec_.2)

/-! ## Helper lemmas -/

/-- Reading back the four big-endian bytes of a value below `2^32`
recovers it. -/
theorem u32beValue_of_bytes (L : Nat) (h : L < 2^32) :
    u32beValue (L / 2^24) (L / 2^16 % 256) (L / 2^8 % 256) (L % 256) = L := by
  unfold u32beValue
  omega

/-- `takeExact` splits off exactly the first list of an append. -/
theorem takeExact_append (xs ys : List Nat) :
    takeExact xs.length (xs ++ ys) = some (xs, ys) := by
  induction xs with
  | nil => rfl
  | cons a as ih => simp [takeExact, ih]

/-- Kind bytes of the three real packet kinds decode back to themselves. -/
theorem kindOfByte_byteOfKind (k : TelekeyPacketKind)
    (hk : k = .Handshake ∨ k = .KeyEvent ∨ k = .Ping) :
    kindOfByte (byteOfKind k) = k := by
  rcases hk with h | h | h <;> subst h <;> rfl

/-- Receiving a well-formed frame whose length field is in range yields
the framed buffer split into body and kind byte. -/
theorem tcpRecvPacket_frame (L : Nat) (hpos : 0 < L) (hlt : L < 2^32)
    (body : List Nat) (kb : Nat) (tail : List Nat)
    (hlen : body.length + 1 = L) :
    tcpRecvPacket (u32beBytes L ++ ((body ++ [kb]) ++ tail)) =
      .ok (⟨kindOfByte kb, body⟩, tail) := by
  have hmod : L % 2^32 = L := Nat.mod_eq_of_lt hlt
  have htake : takeExact L ((body ++ [kb]) ++ tail) = some (body ++ [kb], tail) := by
    have h1 : (body ++ [kb]).length = L := by
      simp [List.length_append, hlen]
    rw [← h1]
    exact takeExact_append _ _
  simp only [u32beBytes, hmod, List.cons_append, List.nil_append]
  simp only [tcpRecvPacket, u32beValue_of_bytes L hlt,
    if_neg (Nat.pos_iff_ne_zero.mp hpos), htake, List.getLast?_concat,
    List.dropLast_concat]

/-- The latency counter and probe count of one loop iteration do not
depend on the key read: with `refresh_latency = Some N`, a probe fires
exactly when the counter already equals `N` (and the counter resets),
otherwise the counter increments. -/
theorem inputLoopStep_latency (N : Nat) (s : InputLoopState) (r : Option ConsoleKey) :
    (inputLoopStep (some N) s r).next.l = (if s.l = N then 0 else s.l + 1) ∧
    (inputLoopStep (some N) s r).probes = (if s.l = N then 1 else 0) := by
  cases hs : s.tstate <;> cases r <;>
    simp [inputLoopStep, hs] <;> split <;> simp_all

/-- Closed form for the probe count: starting from a counter value
`l ≤ N`, a run of `K` reads fires `(K + l) / (N + 1)` probes. -/
theorem runInputLoop_probes (N : Nat) :
    ∀ (inputs : List (Option ConsoleKey)) (s : InputLoopState), s.l ≤ N →
      (runInputLoop (some N) s inputs).2 = (inputs.length + s.l) / (N + 1) := by
  intro inputs
  induction inputs with
  | nil =>
    intro s hs
    simp only [runInputLoop, List.length_nil, Nat.zero_add]
    exact (Nat.div_eq_of_lt (by omega)).symm
  | cons r rs ih =>
    intro s hs
    obtain ⟨hl, hp⟩ := inputLoopStep_latency N s r
    by_cases h : s.l = N
    · rw [if_pos h] at hl hp
      have hnext : (inputLoopStep (some N) s r).next.l ≤ N := by omega
      simp only [runInputLoop, hp, ih _ hnext, hl, List.length_cons, Nat.add_zero]
      have h2 : rs.length + 1 + s.l = rs.length + (N + 1) := by omega
      rw [h2, Nat.add_div_right _ (show 0 < N + 1 by omega)]
      omega
    · rw [if_neg h] at hl hp
      have hnext : (inputLoopStep (some N) s r).next.l ≤ N := by omega
      simp only [runInputLoop, hp, ih _ hnext, hl, List.length_cons]
      have h2 : rs.length + (s.l + 1) = rs.length + 1 + s.l := by omega
      rw [h2]
      omega

/-- The history after one loop iteration: appended (with eviction at
capacity 20) on an `Active` read, untouched otherwise; the latency logic
never modifies it. -/
theorem inputLoopStep_history (refresh : Option Nat) (s : InputLoopState)
    (r : Option ConsoleKey) :
    (inputLoopStep refresh s r).next.history =
      (match s.tstate, r with
        | .Active, some k =>
          (if s.history.length = 20 then s.history.drop 1 else s.history)
            ++ [keyEventOfConsoleKey k]
        | _, _ => s.history) := by
  cases ht : s.tstate <;> cases r <;> cases refresh <;>
    simp only [inputLoopStep, ht] <;> (try split) <;> rfl

/-- One loop iteration keeps the history within 20 entries. -/
theorem inputLoopStep_history_bound (refresh : Option Nat)
    (s : InputLoopState) (r : Option ConsoleKey)
    (hs : s.history.length ≤ 20) :
    (inputLoopStep refresh s r).next.history.length ≤ 20 := by
  rw [inputLoopStep_history]
  cases ht : s.tstate <;> cases r <;> try exact hs
  by_cases h : s.history.length = 20 <;> simp [h] <;> omega

/-- The history stays within 20 entries over any run of the loop. -/
theorem runInputLoop_history_bound (refresh : Option Nat) :
    ∀ (inputs : List (Option ConsoleKey)) (s : InputLoopState),
      s.history.length ≤ 20 →
      ((runInputLoop refresh s inputs).1).history.length ≤ 20 := by
  intro inputs
  induction inputs with
  | nil => intro s hs; exact hs
  | cons r rs ih =>
    intro s hs
    simp only [runInputLoop]
    exact ih _ (inputLoopStep_history_bound refresh s r hs)

/-! ## Claims -/

/-- Claim C5, corrected (counterexample): the framer round-trip fails for
a body of `2^32 - 1` bytes — the `as u32` cast wraps `body.len() + 1` to
`0`, so the receiver rejects the frame as zero-length instead of
returning the packet. -/
theorem claim_C5_counterexample :
    tcpRecvPacket (tcpSendPacket ⟨.Ping, List.replicate (2^32 - 1) 0⟩) ≠
      .ok (⟨.Ping, List.replicate (2^32 - 1) 0⟩, []) := by
  have hlen : (List.replicate (2^32 - 1) (0 : Nat)).length = 2^32 - 1 :=
    List.length_replicate _ _
  have hbytes : u32beBytes (2^32 - 1 + 1) = [0, 0, 0, 0] := by
    norm_num [u32beBytes]
  have herr : tcpRecvPacket (tcpSendPacket ⟨.Ping, List.replicate (2^32 - 1) 0⟩) =
      .error .invalidInput := by
    simp only [tcpSendPacket, hlen, hbytes, List.cons_append, List.nil_append]
    rfl
  intro hcontra
  rw [herr] at hcontra
  exact Except.noConfusion hcontra

/-- Claim C5 (amended): for the three real packet kinds and any body with
`body.len() + 1` below `2^32`, the plain transport round-trips: the frame
is `[u32 BE (len+1)][body][kind]` and receiving it yields the packet back
with the rest of the stream untouched. -/
theorem claim_C5_framer_roundtrip (k : TelekeyPacketKind) (body rest : List Nat)
    (hk : k = .Handshake ∨ k = .KeyEvent ∨ k = .Ping)
    (hfit : body.length + 1 < 2^32) :
    tcpSendPacket ⟨k, body⟩ =
      u32beBytes (body.length + 1) ++ body ++ [byteOfKind k] ∧
    tcpRecvPacket (tcpSendPacket ⟨k, body⟩ ++ rest) = .ok (⟨k, body⟩, rest) := by
  refine ⟨rfl, ?_⟩
  have h := tcpRecvPacket_frame (body.length + 1) (by omega) hfit body
    (byteOfKind k) rest rfl
  rw [kindOfByte_byteOfKind k hk] at h
  calc tcpRecvPacket (tcpSendPacket ⟨k, body⟩ ++ rest)
      = tcpRecvPacket (u32beBytes (body.length + 1) ++ ((body ++ [byteOfKind k]) ++ rest)) := by
        simp [tcpSendPacket, List.append_assoc]
    _ = .ok (⟨k, body⟩, rest) := h

/-- Claim C5 witness: a concrete Ping packet with body `[10, 20]`
round-trips through the plain transport. -/
theorem claim_C5_witness :
    tcpRecvPacket (tcpSendPacket ⟨.Ping, [10, 20]⟩ ++ [9]) =
      .ok (⟨.Ping, [10, 20]⟩, [9]) :=
  (claim_C5_framer_roundtrip .Ping [10, 20] [9] (by decide) (by norm_num)).2

/-- Claim C6: a stream whose first four bytes encode the `u32` value `0`
makes `recv_packet` of both the plain and the secure transport return the
`InvalidInput` protocol error, for any AEAD opening function. -/
theorem claim_C6_zero_length (b0 b1 b2 b3 : Nat) (rest : List Nat)
    (openFn : List Nat → Option (List Nat))
    (h : u32beValue b0 b1 b2 b3 = 0) :
    tcpRecvPacket (b0 :: b1 :: b2 :: b3 :: rest) = .error .invalidInput ∧
    kexRecvPacket openFn (b0 :: b1 :: b2 :: b3 :: rest) = .err .invalidInput := by
  constructor
  · simp [tcpRecvPacket, h]
  · simp [kexRecvPacket, h]

/-- Claim C6 witness: the all-zero header on an otherwise empty stream is
rejected by both transports. -/
theorem claim_C6_witness :
    tcpRecvPacket [0, 0, 0, 0] = .error .invalidInput ∧
    kexRecvPacket (fun _ => none) [0, 0, 0, 0] = .err .invalidInput :=
  claim_C6_zero_length 0 0 0 0 [] (fun _ => none) (by decide)

/-- Claim C3, corrected (counterexample): with `refresh_latency = Some 1`
a run of one keystroke fires no probe, while the claim's `floor(K/N)`
predicts `1/1 = 1` — the counter is compared against `N` before being
incremented, so the first probe only fires on the second read. -/
theorem claim_C3_counterexample :
    (runInputLoop (some 1) ⟨.Idle, [], 0⟩ [some (.Char 97)]).2 ≠ 1 / 1 := by
  decide

/-- Claim C3 (amended): with `refresh_latency = Some N` and the counter
starting at `0`, a run of `K` reads fires exactly `floor(K/(N+1))`
latency probes: the counter resets when it reaches `N` at the
check, which happens every `N + 1` reads. -/
theorem claim_C3_latency_cadence (N : Nat) (s0 : InputLoopState)
    (inputs : List (Option ConsoleKey)) (hN : 0 < N) (hl : s0.l = 0) :
    (runInputLoop (some N) s0 inputs).2 = inputs.length / (N + 1) := by
  have h := runInputLoop_probes N inputs s0 (by omega)
  rw [h, hl, Nat.add_zero]

/-- Claim C3 witness: four keystrokes at `N = 1` fire two probes. -/
theorem claim_C3_witness :
    (runInputLoop (some 1) ⟨.Idle, [], 0⟩
      [some (.Char 97), some (.Char 98), some (.Char 99), some (.Char 100)]).2 = 2 :=
  claim_C3_latency_cadence 1 ⟨.Idle, [], 0⟩ _ (by decide) rfl

/-- Claim C9: in the `update_screen` input loop the history buffer never
exceeds 20 entries over any run, and a push at capacity evicts the oldest
entry first. -/
theorem claim_C9_history_bound (refresh : Option Nat) (s0 : InputLoopState)
    (inputs : List (Option ConsoleKey)) (k : ConsoleKey)
    (h0 : s0.history.length ≤ 20) :
    ((runInputLoop refresh s0 inputs).1).history.length ≤ 20 ∧
    (s0.tstate = .Active → s0.history.length = 20 →
      (inputLoopStep refresh s0 (some k)).next.history =
        s0.history.drop 1 ++ [keyEventOfConsoleKey k]) := by
  constructor
  · exact runInputLoop_history_bound refresh inputs s0 h0
  · intro ht h20
    rw [inputLoopStep_history]
    simp [ht, h20]

/-- Claim C9 witness: from a full 20-entry history, a run keeps the bound
and the next push evicts the front entry. -/
theorem claim_C9_witness :
    ((runInputLoop (some 20) ⟨.Active, List.replicate 20 ⟨.UNKNOWN, 0, 0⟩, 0⟩
        [some .Enter]).1).history.length ≤ 20 ∧
    (TelekeyState.Active = TelekeyState.Active →
      (List.replicate 20 (⟨.UNKNOWN, 0, 0⟩ : KeyEvent)).length = 20 →
      (inputLoopStep (some 20) ⟨.Active, List.replicate 20 ⟨.UNKNOWN, 0, 0⟩, 0⟩
          (some .Enter)).next.history =
        (List.replicate 20 (⟨.UNKNOWN, 0, 0⟩ : KeyEvent)).drop 1
          ++ [keyEventOfConsoleKey .Enter]) :=
  claim_C9_history_bound (some 20) ⟨.Active, List.replicate 20 ⟨.UNKNOWN, 0, 0⟩, 0⟩
    [some .Enter] .Enter (by decide)

/-- Claim C1, corrected (counterexample): a `CHAR 'A'` KeyEvent packet
received in steady state with `cold_run` set is ignored by a server-role
peer (no stdout output, no effects at all), while a client-role peer
formats it and prints "A" — the opposite of the claim's role
assignment. -/
theorem claim_C1_counterexample :
    handlePacket ⟨⟨"s", false, true, some 20, true⟩, 1, .Server,
        some ⟨"c", 1, .Client⟩, .Idle⟩ 0
        ⟨.KeyEvent, encodeKeyEvent ⟨.CHAR, 65, 0⟩⟩ =
      .ok noEffects ⟨⟨"s", false, true, some 20, true⟩, 1, .Server,
        some ⟨"c", 1, .Client⟩, .Idle⟩ ∧
    handlePacket ⟨⟨"c", false, true, some 20, true⟩, 1, .Client,
        some ⟨"s", 1, .Server⟩, .Idle⟩ 0
        ⟨.KeyEvent, encodeKeyEvent ⟨.CHAR, 65, 0⟩⟩ =
      .ok { noEffects with printed := ["A"] } ⟨⟨"c", false, true, some 20, true⟩,
        1, .Client, some ⟨"s", 1, .Server⟩, .Idle⟩ :=
  ⟨by decide, by decide⟩

/-- Claim C1 (amended): in steady state with a known remote, a received
KeyEvent packet is handled by the client-role peer — under `cold_run` it
formats the event and prints it, otherwise it maps the event through the
key-injector as a single click — while the server-role peer never
interprets it (no print, no click, no state change). -/
theorem claim_C1_keyevent_roles (st : TelekeySt) (now : Int) (p : TelekeyPacket)
    (e : KeyEvent) (s : String) (k : EnigoKey)
    (hp : p.kind = .KeyEvent) (hr : st.remote ≠ none) :
    (st.mode = .Server → handlePacket st now p = .ok noEffects st) ∧
    (st.mode = .Client → st.config.coldRun = true →
      decodeKeyEvent p.payload = some e → displayKeyEvent e = some s →
      handlePacket st now p = .ok { noEffects with printed := [s] } st) ∧
    (st.mode = .Client → st.config.coldRun = false →
      decodeKeyEvent p.payload = some e → keyEventToEnigo e = .ok k →
      handlePacket st now p = .ok { noEffects with clicks := [k] } st) := by
  obtain ⟨pk, body⟩ := p
  cases hp
  refine ⟨?_, ?_, ?_⟩
  · intro hm
    simp [handlePacket, hr, hm]
  · intro hm hc hd hdisp
    simp [handlePacket, hr, hm, hc, hd, hdisp]
  · intro hm hc hd hconv
    simp [handlePacket, hr, hm, hc, hd, hconv]

/-- Claim C1 witness: a client-role peer without `cold_run` maps a
received `ENTER` KeyEvent to a Return click. -/
theorem claim_C1_witness :
    handlePacket ⟨⟨"c", false, true, some 20, false⟩, 1, .Client,
        some ⟨"s", 1, .Server⟩, .Idle⟩ 0
        ⟨.KeyEvent, encodeKeyEvent ⟨.ENTER, 0, 0⟩⟩ =
      .ok { noEffects with clicks := [.Return] } ⟨⟨"c", false, true, some 20, false⟩,
        1, .Client, some ⟨"s", 1, .Server⟩, .Idle⟩ :=
  (claim_C1_keyevent_roles _ 0 _ ⟨.ENTER, 0, 0⟩ "x" .Return rfl
    (by decide)).2.2 rfl rfl (by decide) rfl

/-- Claim C2, corrected (counterexample): sealing `Ping [1,2,3]` under the
modelled AEAD yields the frame `[0,0,0,5,8,9,10,9,43]`, which the secure
transport delivers; tampering one ciphertext byte (`8` to `9`) makes the
open fail, and `recv_packet` then panics (`unwrap` on the open result)
instead of returning a `DecryptError`. -/
theorem claim_C2_counterexample :
    kexSendPacket (toySeal 7) ⟨.Ping, [1, 2, 3]⟩ = [0, 0, 0, 5, 8, 9, 10, 9, 43] ∧
    kexRecvPacket (toyOpen 7) [0, 0, 0, 5, 8, 9, 10, 9, 43] =
      .ok ⟨.Ping, [1, 2, 3]⟩ [] ∧
    kexRecvPacket (toyOpen 7) [0, 0, 0, 5, 9, 9, 10, 9, 43] = .crashed ∧
    kexRecvPacket (toyOpen 7) [0, 0, 0, 5, 9, 9, 10, 9, 43] ≠ .err .decryptError :=
  ⟨rfl, rfl, rfl, by decide⟩

/-- Claim C2 (amended): a ciphertext frame whose AEAD open fails is never
delivered as a packet — the secure transport's `recv_packet` panics on the
failed open (it calls `unwrap`), rather than returning an error value. -/
theorem claim_C2_tamper_crashes (openFn : List Nat → Option (List Nat))
    (b0 b1 b2 b3 : Nat) (rest buf rest2 : List Nat)
    (hlen : u32beValue b0 b1 b2 b3 ≠ 0)
    (htake : takeExact (u32beValue b0 b1 b2 b3) rest = some (buf, rest2))
    (hopen : openFn buf = none) :
    kexRecvPacket openFn (b0 :: b1 :: b2 :: b3 :: rest) = .crashed := by
  simp [kexRecvPacket, hlen, htake, hopen]

/-- Claim C2 witness: the sealed frame with its tag byte bumped
(`43` to `44`) fails to open and makes the receive panic. -/
theorem claim_C2_witness :
    toyOpen 7 [8, 9, 10, 9, 44] = none ∧
    kexRecvPacket (toyOpen 7) [0, 0, 0, 5, 8, 9, 10, 9, 44] = .crashed :=
  ⟨by decide,
   claim_C2_tamper_crashes (toyOpen 7) 0 0 0 5 [8, 9, 10, 9, 44]
     [8, 9, 10, 9, 44] [] (by decide) (by decide) (by decide)⟩

/-- Claim C4: in the plain handshake, a received request whose `token`
differs bytewise from the session secret makes the server send no
response, shut the socket down, and fail with "Invalid secret", leaving
its `remote` exactly as it was. -/
theorem claim_C4_invalid_secret (cfg : TelekeyConfig) (version : Nat)
    (remote0 : Option TelekeyRemote) (secret : List Nat)
    (msg : HandshakeRequestM) (h : secret ≠ msg.token) :
    serverPlainHandshake cfg version remote0 secret msg =
      .fail ⟨[], true⟩ "Invalid secret" remote0 := by
  simp [serverPlainHandshake, h]

/-- Claim C4 witness: a one-byte token against a different one-byte
secret is rejected with no response and no remote. -/
theorem claim_C4_witness :
    serverPlainHandshake ⟨"s", false, true, some 20, false⟩ 1 none [1, 2, 3]
        ⟨"c", 1, [1, 2, 4], []⟩ =
      .fail ⟨[], true⟩ "Invalid secret" none :=
  claim_C4_invalid_secret ⟨"s", false, true, some 20, false⟩ 1 none [1, 2, 3]
    ⟨"c", 1, [1, 2, 4], []⟩ (by decide)

/-- Claim C7: every `Ping` packet received in steady state is answered by
exactly one `Ping` packet whose body is the 8-byte big-endian encoding of
the current nanosecond timestamp, with no other effect and no state
change. -/
theorem claim_C7_ping_reply (st : TelekeySt) (now : Int) (p : TelekeyPacket)
    (hp : p.kind = .Ping) :
    handlePacket st now p =
      .ok { noEffects with sent := [⟨.Ping, i64beBytes now⟩] } st ∧
    (i64beBytes now).length = 8 := by
  obtain ⟨pk, body⟩ := p
  cases hp
  exact ⟨rfl, rfl⟩

/-- Claim C7 witness: a Ping with empty body at timestamp 123456789 is
answered with the concrete 8-byte big-endian reply. -/
theorem claim_C7_witness :
    handlePacket ⟨⟨"c", false, true, some 20, false⟩, 1, .Client,
        some ⟨"s", 1, .Server⟩, .Idle⟩ 123456789 ⟨.Ping, []⟩ =
      .ok { noEffects with sent := [⟨.Ping, i64beBytes 123456789⟩] }
        ⟨⟨"c", false, true, some 20, false⟩, 1, .Client,
          some ⟨"s", 1, .Server⟩, .Idle⟩ ∧
    (i64beBytes 123456789).length = 8 :=
  claim_C7_ping_reply _ 123456789 ⟨.Ping, []⟩ rfl

/-- Claim C8: a `Handshake` packet received after the handshake phase is
ignored: `handle_packet` succeeds with no effects and the session state —
in particular `remote` — unchanged. -/
theorem claim_C8_handshake_ignored (st : TelekeySt) (now : Int)
    (p : TelekeyPacket) (hp : p.kind = .Handshake) :
    handlePacket st now p = .ok noEffects st := by
  obtain ⟨pk, body⟩ := p
  cases hp
  rfl

/-- Claim C8 witness: a concrete post-handshake Handshake packet is a
no-op for a server-role state. -/
theorem claim_C8_witness :
    handlePacket ⟨⟨"s", false, true, some 20, false⟩, 1, .Server,
        some ⟨"c", 1, .Client⟩, .Active⟩ 0 ⟨.Handshake, [1, 2]⟩ =
      .ok noEffects ⟨⟨"s", false, true, some 20, false⟩, 1, .Server,
        some ⟨"c", 1, .Client⟩, .Active⟩ :=
  claim_C8_handshake_ignored _ 0 ⟨.Handshake, [1, 2]⟩ rfl

/-- Claim C10: a well-formed KeyEvent packet whose decoded event has kind
`CHAR` and a key that is not a Unicode scalar value crashes the
interpreting peer: `char::from_u32(key).unwrap()` panics both on the
`cold_run` formatting path and on the key-injector mapping path. -/
theorem claim_C10_invalid_char_crashes (st : TelekeySt) (now : Int)
    (body : List Nat) (e : KeyEvent)
    (hm : st.mode = .Client) (hr : st.remote ≠ none)
    (hd : decodeKeyEvent body = some e) (hk : e.kind = .CHAR)
    (hs : isUnicodeScalar e.key = false) :
    handlePacket st now ⟨.KeyEvent, body⟩ = .crashed := by
  obtain ⟨ek, key, m⟩ := e
  cases hk
  by_cases hc : st.config.coldRun
  · simp [handlePacket, hr, hm, hd, hc, displayKeyEvent, hs]
  · simp [handlePacket, hr, hm, hd, hc, keyEventToEnigo, hs]

/-- Claim C10 witness: the encoded KeyEvent `{CHAR, 0xD800}` is a
well-formed packet body that crashes the interpreting peer in both the
`cold_run` and the injection configuration. -/
theorem claim_C10_witness :
    decodeKeyEvent (encodeKeyEvent ⟨.CHAR, 55296, 0⟩) = some ⟨.CHAR, 55296, 0⟩ ∧
    handlePacket ⟨⟨"c", false, true, some 20, true⟩, 1, .Client,
        some ⟨"s", 1, .Server⟩, .Idle⟩ 0
        ⟨.KeyEvent, encodeKeyEvent ⟨.CHAR, 55296, 0⟩⟩ = .crashed ∧
    handlePacket ⟨⟨"c", false, true, some 20, false⟩, 1, .Client,
        some ⟨"s", 1, .Server⟩, .Idle⟩ 0
        ⟨.KeyEvent, encodeKeyEvent ⟨.CHAR, 55296, 0⟩⟩ = .crashed :=
  ⟨by decide,
   claim_C10_invalid_char_crashes _ 0 _ ⟨.CHAR, 55296, 0⟩ rfl (by decide)
     (by decide) rfl (by decide),
   claim_C10_invalid_char_crashes _ 0 _ ⟨.CHAR, 55296, 0⟩ rfl (by decide)
     (by decide) rfl (by decide)⟩

end Telekey
